import Mathlib

/-!
Shallow embedding of the rogue-star n-body simulation
(src/planets.py and src/orbits.py) and verification of the frozen claims.

Python floats are modelled as real numbers; `math.sqrt`, `math.cos`,
`math.sin` become `Real.sqrt`, `Real.cos`, `Real.sin`.  Python's
`ZeroDivisionError` on `normalized()` of a zero vector has no Lean
counterpart (real division by zero yields 0); every claim that touches
`normalized` guards the positions apart, as the spec requires.
-/

namespace RogueStar

/-- Gravitational constant, `G = 6.674e-11` in both source files. -/
noncomputable def G : ℝ := 6.674e-11

/-- The `Point` class of src/planets.py (identical copy in src/orbits.py):
a 2D vector with componentwise arithmetic. -/
structure Point where
  x : ℝ
  y : ℝ

attribute [ext] Point

namespace Point

noncomputable instance : Add Point := ⟨fun p q => ⟨p.x + q.x, p.y + q.y⟩⟩

noncomputable instance : Sub Point := ⟨fun p q => ⟨p.x - q.x, p.y - q.y⟩⟩

noncomputable instance : Neg Point := ⟨fun p => ⟨-p.x, -p.y⟩⟩

noncomputable instance : SMul ℝ Point := ⟨fun c p => ⟨c * p.x, c * p.y⟩⟩

/-- Scalar division `Point.__truediv__`. -/
noncomputable def div (p : Point) (c : ℝ) : Point := ⟨p.x / c, p.y / c⟩

/-- Euclidean norm, the `norm` property of the Python class. -/
noncomputable def norm (p : Point) : ℝ := Real.sqrt (p.x ^ 2 + p.y ^ 2)

/-- The `normalized` method: `self / self.norm`. -/
noncomputable def normalized (p : Point) : Point := p.div p.norm

/-- The `perpendicular` method: `(x, y) -> (y, -x)`. -/
noncomputable def perpendicular (p : Point) : Point := ⟨p.y, -p.x⟩

/-- Dot product, used to state perpendicularity of the initial orbital
velocity (claim C7); not part of the Python source. -/
noncomputable def dot (p q : Point) : ℝ := p.x * q.x + p.y * q.y

end Point

/-- The `Planet` class of src/planets.py (identical copy in src/orbits.py).
Trails (`collections.deque`) are modelled as lists, appended on the right
and popped on the left; `trail_length` is a Python `int`, hence `ℤ`. -/
structure Planet where
  name : String
  pos : Point
  vel : Point
  mass : ℝ
  accel : Point
  color : String
  trail_length : ℤ
  x_trail : List ℝ
  y_trail : List ℝ
  destroyed : Bool

namespace Planet

/-- The `Planet.__init__` constructor: fresh bodies start with zero
acceleration, empty trails and `destroyed = False`. -/
noncomputable def init (name : String) (pos vel : Point) (mass : ℝ) (color : String)
    (trail_length : ℤ) : Planet :=
  { name := name
    pos := pos
    vel := vel
    mass := mass
    accel := Point.mk 0 0
    color := color
    trail_length := trail_length
    x_trail := []
    y_trail := []
    destroyed := false }

/-- The `update_planet` method: `pos += delta * vel`; `vel += delta * accel`;
`accel = Point(0, 0)`.  Python reads the pre-assignment `vel` and `accel`,
which the simultaneous record update reproduces. -/
noncomputable def update_planet (p : Planet) (delta : ℝ) : Planet :=
  { p with
    pos := p.pos + delta • p.vel
    vel := p.vel + delta • p.accel
    accel := Point.mk 0 0 }

/-- The `update_trail` method: append the current position to both trails,
then pop the left (oldest) sample of both when `len(x_trail) > trail_length`. -/
noncomputable def update_trail (p : Planet) : Planet :=
  let xt := p.x_trail ++ [p.pos.x]
  let yt := p.y_trail ++ [p.pos.y]
  if (xt.length : ℤ) > p.trail_length then
    { p with x_trail := xt.tail, y_trail := yt.tail }
  else
    { p with x_trail := xt, y_trail := yt }

/-- The static method `Planet.compute_forces(p1, p2)`.  Python mutates both
arguments; the embedding returns the updated pair.  `direction * F / mass`
parses as `(direction * F) / mass`, reproduced literally. -/
noncomputable def compute_forces (p1 p2 : Planet) : Planet × Planet :=
  let displace := p1.pos - p2.pos
  let r := displace.norm
  let direction := displace.normalized
  let F := G * p1.mass * p2.mass / r ^ 2
  let q1 : Planet := { p1 with accel := p1.accel - (F • direction).div p1.mass }
  let q2 : Planet := { p2 with accel := p2.accel + (F • direction).div p2.mass }
  if r < 4e9 then
    if p1.mass < p2.mass then
      ({ q1 with destroyed := true }, q2)
    else
      (q1, { q2 with destroyed := true })
  else
    (q1, q2)

/-- Shared subexpression of both orbit initializers:
`365 * (radius / 1.496e11)**(3/2)` (Python `3/2` is the float `1.5`). -/
noncomputable def orbital_period_raw (radius : ℝ) : ℝ :=
  365 * (radius / 1.496e11) ^ ((3 : ℝ) / 2)

/-- Python `int()` applied to a float: truncation toward zero. -/
noncomputable def pyInt (v : ℝ) : ℤ := if 0 ≤ v then ⌊v⌋ else ⌈v⌉

/-- The static method `Planet.in_orbit_of` of src/planets.py.  The Python
default `angle=None` draws a uniform random angle; the embedding takes the
angle as an explicit argument (the random draw is external nondeterminism).
This variant clamps the orbital period to `max(min(365, p), 60)` and offsets
position and velocity by the parent's. -/
noncomputable def in_orbit_of (parent : Planet) (name : String) (radius mass : ℝ)
    (color : String) (angle : ℝ) (days_per_frame : ℤ) : Planet :=
  let pos0 := Point.mk (radius * Real.cos angle) (radius * Real.sin angle)
  let direction := pos0.perpendicular.normalized
  let speed := Real.sqrt G * Real.sqrt parent.mass / Real.sqrt radius
  let orbital_period := max (min 365 (orbital_period_raw radius)) 60
  let trail_len := pyInt (0.8 * (orbital_period / (days_per_frame : ℝ)))
  init name (pos0 + parent.pos) (speed • direction + parent.vel) mass color trail_len

/-- The static method `Planet.in_orbit` of src/orbits.py.  It hardcodes the
sun's mass `1.989e30`, does not offset by a parent, and clamps the orbital
period only from above: `min(365, p)`. -/
noncomputable def in_orbit (name : String) (radius mass : ℝ)
    (color : String) (angle : ℝ) (days_per_frame : ℤ) : Planet :=
  let pos0 := Point.mk (radius * Real.cos angle) (radius * Real.sin angle)
  let direction := pos0.perpendicular.normalized
  let speed := Real.sqrt G * Real.sqrt (1.989e30) / Real.sqrt radius
  let orbital_period := min 365 (orbital_period_raw radius)
  let trail_len := pyInt (0.8 * (orbital_period / (days_per_frame : ℝ)))
  init name pos0 (speed • direction) mass color trail_len

/-- The static method `Planet.produce_rogue` (identical in both files). -/
noncomputable def produce_rogue (days_to_pass : ℤ) (solar_masses : ℝ) : Planet :=
  let speed : ℝ := 2e4
  let radius : ℝ := speed * (days_to_pass : ℝ) * 24 * 3600 + 778.5e9
  let y : ℝ := 5 * 149.6e9
  init "rogue" (Point.mk (-radius) y) (Point.mk speed 0) (1.989e30 * solar_masses)
    "yellow" 0

end Planet

/-- Index pairs `(i, j)` with `i < j < n` in lexicographic order: the order
in which `itertools.combinations(planets.values(), 2)` yields the pairs of a
dict of `n` bodies. -/
def pairIndices (n : ℕ) : List (ℕ × ℕ) :=
  (List.range n).flatMap fun i => ((List.range n).drop (i + 1)).map fun j => (i, j)

/-- One `Planet.compute_forces(p1, p2)` call on entries `i` and `j` of the
body list, writing both updated bodies back (the Python call mutates both
dict entries in place). -/
noncomputable def apply_pair (l : List Planet) (ij : ℕ × ℕ) : List Planet :=
  match l.get? ij.1, l.get? ij.2 with
  | some p, some q =>
      let r := Planet.compute_forces p q
      (l.set ij.1 r.1).set ij.2 r.2
  | _, _ => l

/-- The force-accumulation pass of `update_planets` (src/orbits.py):
`for p1, p2 in combinations(planets.values(), 2): Planet.compute_forces(p1, p2)`,
each unordered pair visited exactly once, in lexicographic index order. -/
noncomputable def accumulate_forces (l : List Planet) : List Planet :=
  (pairIndices l.length).foldl apply_pair l

/-- The body of the per-planet loop of `update_planets`: advance one body by
`delta`, then subtract the snapshot position and velocity taken from the
centering body.  Each Python iteration touches only the body at hand, so the
loop is a map of this transform. -/
noncomputable def shift_update (sun_pos sun_vel : Point) (delta : ℝ) (p : Planet) : Planet :=
  let q := p.update_planet delta
  { q with pos := q.pos - sun_pos, vel := q.vel - sun_vel }

/-- The `update_planets` function of src/orbits.py.  The Python dict keyed by
body name is modelled as a list (Python dicts preserve insertion order and the
keys are the body names); `planets[center_on]` raising `KeyError` on a missing
centering body becomes `none`.  The snapshot of the centering body is taken
after the force pass and before any body is updated; destroyed bodies are
collected during the loop and deleted after it, i.e. filtered out. -/
noncomputable def update_planets (planets : List Planet) (center_on : String)
    (delta : ℝ) : Option (List Planet) :=
  let ps := accumulate_forces planets
  match ps.find? (fun p => p.name == center_on) with
  | none => none
  | some c =>
      some (((ps.map (shift_update c.pos c.vel delta))).filter (fun p => !p.destroyed))

/-- One physics tick of the driver: `update_planets(planets, center_on=center_on,
delta=3600)`, threading the `KeyError` failure through `Option`. -/
noncomputable def tick (center_on : String) (st : Option (List Planet)) :
    Option (List Planet) :=
  st.bind fun ps => update_planets ps center_on 3600

/-- One rendered frame of `simulate` (src/orbits.py): the inner
`for j in range(args.days_per_frame * 24)` loop of ticks, then `plot_planets`,
whose only body-state effect is `p.update_trail()` on every surviving body
(the actual rendering is the external renderer). -/
noncomputable def frame_step (center_on : String) (dpf : ℤ)
    (st : Option (List Planet)) : Option (List Planet) :=
  let afterTicks := (tick center_on)^[(dpf * 24).toNat] st
  afterTicks.map fun ps => ps.map Planet.update_trail

/-- The `while days_elapsed < days` loop of `simulate`, returning the final
frame index, the final elapsed-day counter and the final body state.  The
Python loop never terminates when `days_per_frame ≤ 0`; the extra `0 < dpf`
conjunct makes the recursion well-founded and agrees with the source for
every positive `days_per_frame` (the only values the program ever passes). -/
noncomputable def sim_loop (center_on : String) (dpf days : ℤ) (days_elapsed : ℤ)
    (frame_i : ℕ) (st : Option (List Planet)) : ℕ × ℤ × Option (List Planet) :=
  if h : days_elapsed < days ∧ 0 < dpf then
    sim_loop center_on dpf days (days_elapsed + dpf) (frame_i + 1)
      (frame_step center_on dpf st)
  else
    (frame_i, days_elapsed, st)
termination_by (days - days_elapsed).toNat
decreasing_by omega

/-- The `simulate` function of src/orbits.py: `days_to_pass = 600`,
`days = int(5 * days_to_pass) = 3000`, starting from `days_elapsed = 0` and
the caller's `initial_frame`.  The initial body set (built by
`initialize_planets` plus `produce_rogue`, with seeded random angles) is
taken as a parameter, since the random draws are external. -/
noncomputable def simulate (init : List Planet) (dpf : ℤ) (center_on : String)
    (initial_frame : ℕ) : ℕ × ℤ × Option (List Planet) :=
  sim_loop center_on dpf (5 * 600) 0 initial_frame (some init)

namespace Point

@[simp] theorem add_x (p q : Point) : (p + q).x = p.x + q.x := rfl

@[simp] theorem add_y (p q : Point) : (p + q).y = p.y + q.y := rfl

@[simp] theorem sub_x (p q : Point) : (p - q).x = p.x - q.x := rfl

@[simp] theorem sub_y (p q : Point) : (p - q).y = p.y - q.y := rfl

@[simp] theorem neg_x (p : Point) : (-p).x = -p.x := rfl

@[simp] theorem neg_y (p : Point) : (-p).y = -p.y := rfl

@[simp] theorem smul_x (c : ℝ) (p : Point) : (c • p).x = c * p.x := rfl

@[simp] theorem smul_y (c : ℝ) (p : Point) : (c • p).y = c * p.y := rfl

@[simp] theorem div_x (p : Point) (c : ℝ) : (p.div c).x = p.x / c := rfl

@[simp] theorem div_y (p : Point) (c : ℝ) : (p.div c).y = p.y / c := rfl

@[simp] theorem mk_x (a b : ℝ) : (Point.mk a b).x = a := rfl

@[simp] theorem mk_y (a b : ℝ) : (Point.mk a b).y = b := rfl

theorem norm_nonneg (p : Point) : 0 ≤ p.norm := Real.sqrt_nonneg _

theorem norm_mk (a b : ℝ) : (Point.mk a b).norm = Real.sqrt (a ^ 2 + b ^ 2) := rfl

theorem norm_eq_zero_iff (p : Point) : p.norm = 0 ↔ p = Point.mk 0 0 := by
  constructor
  · intro h
    have hs : p.x ^ 2 + p.y ^ 2 = 0 :=
      Real.sqrt_eq_zero (by positivity) |>.mp h
    have hx : p.x = 0 := by nlinarith [sq_nonneg p.x, sq_nonneg p.y]
    have hy : p.y = 0 := by nlinarith [sq_nonneg p.x, sq_nonneg p.y]
    ext <;> simp [hx, hy]
  · intro h
    subst h
    simp [norm, Real.sqrt_eq_zero]

theorem norm_neg (p : Point) : (-p).norm = p.norm := by
  simp [norm]

theorem norm_smul (c : ℝ) (p : Point) : (c • p).norm = |c| * p.norm := by
  simp only [norm, smul_x, smul_y]
  rw [show (c * p.x) ^ 2 + (c * p.y) ^ 2 = c ^ 2 * (p.x ^ 2 + p.y ^ 2) by ring,
    Real.sqrt_mul (sq_nonneg c), Real.sqrt_sq_eq_abs]

theorem norm_div (p : Point) (c : ℝ) : (p.div c).norm = p.norm / |c| := by
  simp only [norm, div_x, div_y]
  rw [show (p.x / c) ^ 2 + (p.y / c) ^ 2 = (p.x ^ 2 + p.y ^ 2) / c ^ 2 by ring,
    Real.sqrt_div' _ (sq_nonneg c), Real.sqrt_sq_eq_abs]

theorem norm_normalized (p : Point) (h : p.norm ≠ 0) : p.normalized.norm = 1 := by
  rw [normalized, norm_div, abs_of_nonneg (norm_nonneg p), div_self h]

theorem norm_perpendicular (p : Point) : p.perpendicular.norm = p.norm := by
  simp only [norm, perpendicular]
  rw [show (p.y : ℝ) ^ 2 + (-p.x) ^ 2 = p.x ^ 2 + p.y ^ 2 by ring]

theorem dot_smul (c : ℝ) (p q : Point) : dot (c • p) q = c * dot p q := by
  simp only [dot, smul_x, smul_y]; ring

theorem dot_perpendicular (p : Point) : dot p.perpendicular p = 0 := by
  simp only [dot, perpendicular, mk_x, mk_y]; ring

theorem div_eq_smul (p : Point) (c : ℝ) : p.div c = c⁻¹ • p := by
  ext <;> simp [div] <;> ring

end Point

namespace Planet

@[simp] theorem init_name (n : String) (p v : Point) (m : ℝ) (c : String) (t : ℤ) :
    (init n p v m c t).name = n := rfl

@[simp] theorem init_pos (n : String) (p v : Point) (m : ℝ) (c : String) (t : ℤ) :
    (init n p v m c t).pos = p := rfl

@[simp] theorem init_vel (n : String) (p v : Point) (m : ℝ) (c : String) (t : ℤ) :
    (init n p v m c t).vel = v := rfl

@[simp] theorem init_mass (n : String) (p v : Point) (m : ℝ) (c : String) (t : ℤ) :
    (init n p v m c t).mass = m := rfl

@[simp] theorem init_accel (n : String) (p v : Point) (m : ℝ) (c : String) (t : ℤ) :
    (init n p v m c t).accel = Point.mk 0 0 := rfl

@[simp] theorem init_color (n : String) (p v : Point) (m : ℝ) (c : String) (t : ℤ) :
    (init n p v m c t).color = c := rfl

@[simp] theorem init_trail_length (n : String) (p v : Point) (m : ℝ) (c : String) (t : ℤ) :
    (init n p v m c t).trail_length = t := rfl

@[simp] theorem init_x_trail (n : String) (p v : Point) (m : ℝ) (c : String) (t : ℤ) :
    (init n p v m c t).x_trail = [] := rfl

@[simp] theorem init_y_trail (n : String) (p v : Point) (m : ℝ) (c : String) (t : ℤ) :
    (init n p v m c t).y_trail = [] := rfl

@[simp] theorem init_destroyed (n : String) (p v : Point) (m : ℝ) (c : String) (t : ℤ) :
    (init n p v m c t).destroyed = false := rfl

end Planet

theorem Point.norm_mk_x (a : ℝ) : (Point.mk a 0).norm = |a| := by
  rw [norm_mk, show a ^ 2 + (0 : ℝ) ^ 2 = a ^ 2 by ring, Real.sqrt_sq_eq_abs]

theorem Point.sub_eq_zero_iff (p q : Point) : p - q = Point.mk 0 0 ↔ p = q := by
  constructor
  · intro h
    have hx := congrArg Point.x h
    have hy := congrArg Point.y h
    simp only [sub_x, sub_y, mk_x, mk_y] at hx hy
    ext
    · linarith
    · linarith
  · intro h
    subst h
    ext <;> simp

/-- C3: one call to `update_planet` sets the position to the old position plus
`Δt` times the old velocity, the velocity to the old velocity plus `Δt` times
the acceleration accumulated this tick, and resets the acceleration to zero
(semi-implicit Euler order: the position update uses the pre-update velocity). -/
theorem C3_update_planet_step (p : Planet) (delta : ℝ) :
    (p.update_planet delta).pos = p.pos + delta • p.vel ∧
    (p.update_planet delta).vel = p.vel + delta • p.accel ∧
    (p.update_planet delta).accel = Point.mk 0 0 :=
  ⟨rfl, rfl, rfl⟩

/-- C2: for bodies at distinct positions, `compute_forces` marks a body
destroyed exactly when the separation is strictly below `4e9` meters; the
lower-mass body is marked, with the second body marked on equal masses, and a
separation of `4e9` or more leaves both destroyed flags unchanged. -/
theorem C2_collision_rule (p1 p2 : Planet) (h : p1.pos ≠ p2.pos) :
    ((p1.pos - p2.pos).norm < 4e9 →
      (p1.mass < p2.mass →
        (Planet.compute_forces p1 p2).1.destroyed = true ∧
        (Planet.compute_forces p1 p2).2.destroyed = p2.destroyed) ∧
      (¬ p1.mass < p2.mass →
        (Planet.compute_forces p1 p2).2.destroyed = true ∧
        (Planet.compute_forces p1 p2).1.destroyed = p1.destroyed)) ∧
    (4e9 ≤ (p1.pos - p2.pos).norm →
      (Planet.compute_forces p1 p2).1.destroyed = p1.destroyed ∧
      (Planet.compute_forces p1 p2).2.destroyed = p2.destroyed) := by
  simp only [Planet.compute_forces]
  constructor
  · intro hr
    constructor
    · intro hm
      rw [if_pos hr, if_pos hm]
      exact ⟨rfl, rfl⟩
    · intro hm
      rw [if_pos hr, if_neg hm]
      exact ⟨rfl, rfl⟩
  · intro hr
    rw [if_neg (not_lt.mpr hr)]
    exact ⟨rfl, rfl⟩

/-- Witness for C2: bodies at `(0,0)` and `(3.999e9, 0)` with masses `1 < 2`
are closer than `4e9`, so the first (lighter) body is destroyed. -/
theorem C2_collision_rule_witness :
    (Planet.init "a" (Point.mk 0 0) (Point.mk 0 0) 1 "red" 0).pos ≠
      (Planet.init "b" (Point.mk 3.999e9 0) (Point.mk 0 0) 2 "blue" 0).pos ∧
    (Planet.compute_forces (Planet.init "a" (Point.mk 0 0) (Point.mk 0 0) 1 "red" 0)
      (Planet.init "b" (Point.mk 3.999e9 0) (Point.mk 0 0) 2 "blue" 0)).1.destroyed = true := by
  have hne : (Planet.init "a" (Point.mk 0 0) (Point.mk 0 0) 1 "red" 0).pos ≠
      (Planet.init "b" (Point.mk 3.999e9 0) (Point.mk 0 0) 2 "blue" 0).pos := by
    simp only [Planet.init_pos]
    intro hcontra
    have hx := congrArg Point.x hcontra
    simp only [Point.mk_x] at hx
    norm_num at hx
  have hsub : (Planet.init "a" (Point.mk 0 0) (Point.mk 0 0) 1 "red" 0).pos -
      (Planet.init "b" (Point.mk 3.999e9 0) (Point.mk 0 0) 2 "blue" 0).pos =
      Point.mk (-3.999e9) 0 := by
    simp only [Planet.init_pos]
    ext <;> simp
  have hr : ((Planet.init "a" (Point.mk 0 0) (Point.mk 0 0) 1 "red" 0).pos -
      (Planet.init "b" (Point.mk 3.999e9 0) (Point.mk 0 0) 2 "blue" 0).pos).norm < 4e9 := by
    rw [hsub, Point.norm_mk_x]
    rw [abs_of_nonpos (by norm_num)]
    norm_num
  have hm : (Planet.init "a" (Point.mk 0 0) (Point.mk 0 0) 1 "red" 0).mass <
      (Planet.init "b" (Point.mk 3.999e9 0) (Point.mk 0 0) 2 "blue" 0).mass := by
    simp only [Planet.init_mass]
    norm_num
  exact ⟨hne, (((C2_collision_rule _ _ hne).1 hr).1 hm).1⟩

/-- Counterexample to C5: the claim says the `destroyed` flag is unchanged for
every pair with distinct positions, but bodies `1e9` meters apart have
distinct positions and the call sets the lighter one's `destroyed` flag. -/
theorem C5_counterexample :
    (Planet.init "a" (Point.mk 0 0) (Point.mk 0 0) 1 "red" 0).pos ≠
      (Planet.init "b" (Point.mk 1e9 0) (Point.mk 0 0) 2 "blue" 0).pos ∧
    (Planet.compute_forces (Planet.init "a" (Point.mk 0 0) (Point.mk 0 0) 1 "red" 0)
        (Planet.init "b" (Point.mk 1e9 0) (Point.mk 0 0) 2 "blue" 0)).1.destroyed ≠
      (Planet.init "a" (Point.mk 0 0) (Point.mk 0 0) 1 "red" 0).destroyed := by
  have hsub : (Planet.init "a" (Point.mk 0 0) (Point.mk 0 0) 1 "red" 0).pos -
      (Planet.init "b" (Point.mk 1e9 0) (Point.mk 0 0) 2 "blue" 0).pos =
      Point.mk (-1e9) 0 := by
    simp only [Planet.init_pos]
    ext <;> simp
  have hr : ((Planet.init "a" (Point.mk 0 0) (Point.mk 0 0) 1 "red" 0).pos -
      (Planet.init "b" (Point.mk 1e9 0) (Point.mk 0 0) 2 "blue" 0).pos).norm < 4e9 := by
    rw [hsub, Point.norm_mk_x, abs_of_nonpos (by norm_num)]
    norm_num
  refine ⟨?_, ?_⟩
  · simp only [Planet.init_pos]
    intro hcontra
    have hx := congrArg Point.x hcontra
    simp only [Point.mk_x] at hx
    norm_num at hx
  · simp only [Planet.compute_forces]
    rw [if_pos hr, if_pos (by simp only [Planet.init_mass]; norm_num)]
    simp

/-- C5 amended: for bodies at distinct positions, `compute_forces` writes only
the `acceleration` and `destroyed` fields: for every pair, the name, position,
velocity, mass, color, trail bound and trail contents of both bodies are
unchanged, and whenever the separation is at least `4e9` meters the destroyed
flag of both bodies is unchanged too. -/
theorem C5_frame_effect (p1 p2 : Planet) (h : p1.pos ≠ p2.pos) :
    ((Planet.compute_forces p1 p2).1.name = p1.name ∧
     (Planet.compute_forces p1 p2).1.pos = p1.pos ∧
     (Planet.compute_forces p1 p2).1.vel = p1.vel ∧
     (Planet.compute_forces p1 p2).1.mass = p1.mass ∧
     (Planet.compute_forces p1 p2).1.color = p1.color ∧
     (Planet.compute_forces p1 p2).1.trail_length = p1.trail_length ∧
     (Planet.compute_forces p1 p2).1.x_trail = p1.x_trail ∧
     (Planet.compute_forces p1 p2).1.y_trail = p1.y_trail ∧
     (Planet.compute_forces p1 p2).2.name = p2.name ∧
     (Planet.compute_forces p1 p2).2.pos = p2.pos ∧
     (Planet.compute_forces p1 p2).2.vel = p2.vel ∧
     (Planet.compute_forces p1 p2).2.mass = p2.mass ∧
     (Planet.compute_forces p1 p2).2.color = p2.color ∧
     (Planet.compute_forces p1 p2).2.trail_length = p2.trail_length ∧
     (Planet.compute_forces p1 p2).2.x_trail = p2.x_trail ∧
     (Planet.compute_forces p1 p2).2.y_trail = p2.y_trail) ∧
    (4e9 ≤ (p1.pos - p2.pos).norm →
      (Planet.compute_forces p1 p2).1.destroyed = p1.destroyed ∧
      (Planet.compute_forces p1 p2).2.destroyed = p2.destroyed) := by
  constructor
  · simp only [Planet.compute_forces]
    split_ifs <;>
      exact ⟨rfl, rfl, rfl, rfl, rfl, rfl, rfl, rfl, rfl, rfl, rfl, rfl, rfl, rfl, rfl, rfl⟩
  · intro hr
    simp only [Planet.compute_forces]
    rw [if_neg (not_lt.mpr hr)]
    exact ⟨rfl, rfl⟩

/-- Witness for C5: two bodies `5e9` meters apart keep their name, position,
velocity, mass and destroyed flag through a `compute_forces` call. -/
theorem C5_frame_effect_witness :
    (Planet.init "a" (Point.mk 0 0) (Point.mk 0 0) 1 "red" 0).pos ≠
      (Planet.init "b" (Point.mk 5e9 0) (Point.mk 0 0) 2 "blue" 0).pos ∧
    4e9 ≤ ((Planet.init "a" (Point.mk 0 0) (Point.mk 0 0) 1 "red" 0).pos -
      (Planet.init "b" (Point.mk 5e9 0) (Point.mk 0 0) 2 "blue" 0).pos).norm ∧
    (Planet.compute_forces (Planet.init "a" (Point.mk 0 0) (Point.mk 0 0) 1 "red" 0)
        (Planet.init "b" (Point.mk 5e9 0) (Point.mk 0 0) 2 "blue" 0)).1.destroyed =
      (Planet.init "a" (Point.mk 0 0) (Point.mk 0 0) 1 "red" 0).destroyed ∧
    (Planet.compute_forces (Planet.init "a" (Point.mk 0 0) (Point.mk 0 0) 1 "red" 0)
        (Planet.init "b" (Point.mk 5e9 0) (Point.mk 0 0) 2 "blue" 0)).2.pos =
      (Planet.init "b" (Point.mk 5e9 0) (Point.mk 0 0) 2 "blue" 0).pos := by
  have hne : (Planet.init "a" (Point.mk 0 0) (Point.mk 0 0) 1 "red" 0).pos ≠
      (Planet.init "b" (Point.mk 5e9 0) (Point.mk 0 0) 2 "blue" 0).pos := by
    simp only [Planet.init_pos]
    intro hcontra
    have hx := congrArg Point.x hcontra
    simp only [Point.mk_x] at hx
    norm_num at hx
  have hr : 4e9 ≤ ((Planet.init "a" (Point.mk 0 0) (Point.mk 0 0) 1 "red" 0).pos -
      (Planet.init "b" (Point.mk 5e9 0) (Point.mk 0 0) 2 "blue" 0).pos).norm := by
    have hsub : (Planet.init "a" (Point.mk 0 0) (Point.mk 0 0) 1 "red" 0).pos -
        (Planet.init "b" (Point.mk 5e9 0) (Point.mk 0 0) 2 "blue" 0).pos =
        Point.mk (-5e9) 0 := by
      simp only [Planet.init_pos]
      ext <;> simp
    rw [hsub, Point.norm_mk_x, abs_of_nonpos (by norm_num)]
    norm_num
  obtain ⟨hfields, hdes⟩ := C5_frame_effect _ _ hne
  exact ⟨hne, hr, (hdes hr).1, hfields.2.2.2.2.2.2.2.2.2.1⟩

/-- C8: one `compute_forces` call computes a single magnitude
`F = G * m1 * m2 / r^2` and one unit direction, changes the first body's
acceleration by `-(direction * F) / m1` and the second's by
`+(direction * F) / m2`, and for equal masses the two acceleration changes
are exactly opposite and of equal norm. -/
theorem C8_equal_opposite (p1 p2 : Planet) (h : p1.pos ≠ p2.pos) :
    (Planet.compute_forces p1 p2).1.accel - p1.accel =
      -(((G * p1.mass * p2.mass / (p1.pos - p2.pos).norm ^ 2) •
          (p1.pos - p2.pos).normalized).div p1.mass) ∧
    (Planet.compute_forces p1 p2).2.accel - p2.accel =
      ((G * p1.mass * p2.mass / (p1.pos - p2.pos).norm ^ 2) •
          (p1.pos - p2.pos).normalized).div p2.mass ∧
    (p1.pos - p2.pos).normalized.norm = 1 ∧
    (p1.mass = p2.mass →
      (Planet.compute_forces p1 p2).1.accel - p1.accel =
        -((Planet.compute_forces p1 p2).2.accel - p2.accel) ∧
      ((Planet.compute_forces p1 p2).1.accel - p1.accel).norm =
        ((Planet.compute_forces p1 p2).2.accel - p2.accel).norm) := by
  have h1 : (Planet.compute_forces p1 p2).1.accel =
      p1.accel - ((G * p1.mass * p2.mass / (p1.pos - p2.pos).norm ^ 2) •
        (p1.pos - p2.pos).normalized).div p1.mass := by
    simp only [Planet.compute_forces]
    split_ifs <;> rfl
  have h2 : (Planet.compute_forces p1 p2).2.accel =
      p2.accel + ((G * p1.mass * p2.mass / (p1.pos - p2.pos).norm ^ 2) •
        (p1.pos - p2.pos).normalized).div p2.mass := by
    simp only [Planet.compute_forces]
    split_ifs <;> rfl
  have hd1 : (Planet.compute_forces p1 p2).1.accel - p1.accel =
      -(((G * p1.mass * p2.mass / (p1.pos - p2.pos).norm ^ 2) •
        (p1.pos - p2.pos).normalized).div p1.mass) := by
    rw [h1]; ext <;> simp
  have hd2 : (Planet.compute_forces p1 p2).2.accel - p2.accel =
      ((G * p1.mass * p2.mass / (p1.pos - p2.pos).norm ^ 2) •
        (p1.pos - p2.pos).normalized).div p2.mass := by
    rw [h2]; ext <;> simp
  refine ⟨hd1, hd2, ?_, ?_⟩
  · apply Point.norm_normalized
    rw [ne_eq, Point.norm_eq_zero_iff, Point.sub_eq_zero_iff]
    exact h
  · intro hm
    have hopp : (Planet.compute_forces p1 p2).1.accel - p1.accel =
        -((Planet.compute_forces p1 p2).2.accel - p2.accel) := by
      rw [hd1, hd2, hm]
    exact ⟨hopp, by rw [hopp, Point.norm_neg]⟩

/-- Witness for C8: two equal-mass bodies `1e10` meters apart receive exactly
opposite acceleration changes. -/
theorem C8_equal_opposite_witness :
    (Planet.init "a" (Point.mk 0 0) (Point.mk 0 0) 3 "red" 0).pos ≠
      (Planet.init "b" (Point.mk 1e10 0) (Point.mk 0 0) 3 "blue" 0).pos ∧
    (Planet.compute_forces (Planet.init "a" (Point.mk 0 0) (Point.mk 0 0) 3 "red" 0)
        (Planet.init "b" (Point.mk 1e10 0) (Point.mk 0 0) 3 "blue" 0)).1.accel -
      (Planet.init "a" (Point.mk 0 0) (Point.mk 0 0) 3 "red" 0).accel =
    -((Planet.compute_forces (Planet.init "a" (Point.mk 0 0) (Point.mk 0 0) 3 "red" 0)
        (Planet.init "b" (Point.mk 1e10 0) (Point.mk 0 0) 3 "blue" 0)).2.accel -
      (Planet.init "b" (Point.mk 1e10 0) (Point.mk 0 0) 3 "blue" 0).accel) := by
  have hne : (Planet.init "a" (Point.mk 0 0) (Point.mk 0 0) 3 "red" 0).pos ≠
      (Planet.init "b" (Point.mk 1e10 0) (Point.mk 0 0) 3 "blue" 0).pos := by
    simp only [Planet.init_pos]
    intro hcontra
    have hx := congrArg Point.x hcontra
    simp only [Point.mk_x] at hx
    norm_num at hx
  exact ⟨hne, ((C8_equal_opposite _ _ hne).2.2.2 rfl).1⟩

/-- C7: `in_orbit_of` places the new body at
`parent.position + radius * (cos angle, sin angle)`, gives it relative speed
`sqrt(G * parent.mass / radius)`, and makes the relative velocity
perpendicular to the radial vector from the parent. -/
theorem C7_orbit_geometry (parent : Planet) (n : String) (radius mass : ℝ)
    (color : String) (angle : ℝ) (dpf : ℤ) (hr : 0 < radius) (hm : 0 ≤ parent.mass) :
    (Planet.in_orbit_of parent n radius mass color angle dpf).pos =
      parent.pos + Point.mk (radius * Real.cos angle) (radius * Real.sin angle) ∧
    ((Planet.in_orbit_of parent n radius mass color angle dpf).vel - parent.vel).norm =
      Real.sqrt (G * parent.mass / radius) ∧
    Point.dot ((Planet.in_orbit_of parent n radius mass color angle dpf).vel - parent.vel)
      ((Planet.in_orbit_of parent n radius mass color angle dpf).pos - parent.pos) = 0 := by
  have hpos : (Planet.in_orbit_of parent n radius mass color angle dpf).pos =
      Point.mk (radius * Real.cos angle) (radius * Real.sin angle) + parent.pos := rfl
  have hvel : (Planet.in_orbit_of parent n radius mass color angle dpf).vel =
      (Real.sqrt G * Real.sqrt parent.mass / Real.sqrt radius) •
        (Point.mk (radius * Real.cos angle) (radius * Real.sin angle)).perpendicular.normalized +
        parent.vel := rfl
  have hvrel : (Planet.in_orbit_of parent n radius mass color angle dpf).vel - parent.vel =
      (Real.sqrt G * Real.sqrt parent.mass / Real.sqrt radius) •
        (Point.mk (radius * Real.cos angle) (radius * Real.sin angle)).perpendicular.normalized := by
    rw [hvel]; ext <;> simp
  have hprel : (Planet.in_orbit_of parent n radius mass color angle dpf).pos - parent.pos =
      Point.mk (radius * Real.cos angle) (radius * Real.sin angle) := by
    rw [hpos]; ext <;> simp
  have hnorm0 : (Point.mk (radius * Real.cos angle) (radius * Real.sin angle)).norm = radius := by
    rw [Point.norm_mk, show (radius * Real.cos angle) ^ 2 + (radius * Real.sin angle) ^ 2 =
      radius ^ 2 * (Real.cos angle ^ 2 + Real.sin angle ^ 2) by ring,
      Real.cos_sq_add_sin_sq, mul_one, Real.sqrt_sq hr.le]
  have hperp :
      (Point.mk (radius * Real.cos angle) (radius * Real.sin angle)).perpendicular.norm =
      radius := by rw [Point.norm_perpendicular, hnorm0]
  have hG : (0 : ℝ) ≤ G := by rw [G]; norm_num
  refine ⟨by rw [hpos]; ext <;> simp <;> ring, ?_, ?_⟩
  · rw [hvrel, Point.norm_smul, Point.norm_normalized _ (by rw [hperp]; exact hr.ne'),
      mul_one, abs_of_nonneg (by positivity)]
    rw [← Real.sqrt_mul hG, ← Real.sqrt_div (by positivity)]
  · rw [hvrel, hprel, Point.dot_smul, Point.normalized, Point.div_eq_smul,
      Point.dot_smul, Point.dot_perpendicular]
    ring

/-- Witness for C7: a body placed at radius `1`, angle `0` around a parent of
mass `4` at rest at the origin satisfies the orbit geometry. -/
theorem C7_orbit_geometry_witness :
    (0 : ℝ) < 1 ∧ (0 : ℝ) ≤ (Planet.init "sun" (Point.mk 0 0) (Point.mk 0 0) 4 "y" 0).mass ∧
    ((Planet.in_orbit_of (Planet.init "sun" (Point.mk 0 0) (Point.mk 0 0) 4 "y" 0)
        "p" 1 1 "c" 0 5).pos =
      (Planet.init "sun" (Point.mk 0 0) (Point.mk 0 0) 4 "y" 0).pos +
        Point.mk (1 * Real.cos 0) (1 * Real.sin 0) ∧
    ((Planet.in_orbit_of (Planet.init "sun" (Point.mk 0 0) (Point.mk 0 0) 4 "y" 0)
        "p" 1 1 "c" 0 5).vel -
      (Planet.init "sun" (Point.mk 0 0) (Point.mk 0 0) 4 "y" 0).vel).norm =
      Real.sqrt (G * (Planet.init "sun" (Point.mk 0 0) (Point.mk 0 0) 4 "y" 0).mass / 1) ∧
    Point.dot ((Planet.in_orbit_of (Planet.init "sun" (Point.mk 0 0) (Point.mk 0 0) 4 "y" 0)
        "p" 1 1 "c" 0 5).vel -
      (Planet.init "sun" (Point.mk 0 0) (Point.mk 0 0) 4 "y" 0).vel)
      ((Planet.in_orbit_of (Planet.init "sun" (Point.mk 0 0) (Point.mk 0 0) 4 "y" 0)
        "p" 1 1 "c" 0 5).pos -
      (Planet.init "sun" (Point.mk 0 0) (Point.mk 0 0) 4 "y" 0).pos) = 0) :=
  ⟨by norm_num, by simp only [Planet.init_mass]; norm_num,
    C7_orbit_geometry _ "p" 1 1 "c" 0 5 (by norm_num)
      (by simp only [Planet.init_mass]; norm_num)⟩

theorem Planet.update_trail_trail_length (p : Planet) :
    p.update_trail.trail_length = p.trail_length := by
  simp only [Planet.update_trail]
  split_ifs <;> rfl

theorem Planet.update_trail_x_length (p : Planet) :
    p.update_trail.x_trail.length =
      if (p.x_trail.length + 1 : ℤ) > p.trail_length then p.x_trail.length
      else p.x_trail.length + 1 := by
  by_cases h : (p.x_trail.length + 1 : ℤ) > p.trail_length
  · rw [if_pos h]
    have hc : ((p.x_trail ++ [p.pos.x]).length : ℤ) > p.trail_length := by
      rw [List.length_append, List.length_singleton]
      push_cast
      omega
    simp only [Planet.update_trail]
    rw [if_pos hc]
    simp [List.length_tail]
  · rw [if_neg h]
    have hc : ¬ ((p.x_trail ++ [p.pos.x]).length : ℤ) > p.trail_length := by
      rw [List.length_append, List.length_singleton]
      push_cast
      omega
    simp only [Planet.update_trail]
    rw [if_neg hc]
    simp

theorem Planet.update_trail_y_length (p : Planet) :
    p.update_trail.y_trail.length =
      if (p.x_trail.length + 1 : ℤ) > p.trail_length then p.y_trail.length
      else p.y_trail.length + 1 := by
  by_cases h : (p.x_trail.length + 1 : ℤ) > p.trail_length
  · rw [if_pos h]
    have hc : ((p.x_trail ++ [p.pos.x]).length : ℤ) > p.trail_length := by
      rw [List.length_append, List.length_singleton]
      push_cast
      omega
    simp only [Planet.update_trail]
    rw [if_pos hc]
    simp [List.length_tail]
  · rw [if_neg h]
    have hc : ¬ ((p.x_trail ++ [p.pos.x]).length : ℤ) > p.trail_length := by
      rw [List.length_append, List.length_singleton]
      push_cast
      omega
    simp only [Planet.update_trail]
    rw [if_neg hc]
    simp

theorem Planet.update_trail_iterate_length (k : ℕ) (p : Planet)
    (hx : (p.x_trail.length : ℤ) ≤ p.trail_length) :
    (Planet.update_trail^[k] p).x_trail.length =
      min (p.x_trail.length + k) p.trail_length.toNat := by
  induction k generalizing p with
  | zero =>
    simp only [Function.iterate_zero, id]
    omega
  | succ k ih =>
    rw [Function.iterate_succ_apply]
    have hx1 : ((p.update_trail.x_trail.length : ℤ)) ≤ p.update_trail.trail_length := by
      rw [Planet.update_trail_x_length, Planet.update_trail_trail_length]
      split_ifs with hcond
      · exact hx
      · push_cast
        omega
    rw [ih _ hx1, Planet.update_trail_trail_length, Planet.update_trail_x_length]
    split_ifs with hcond
    · omega
    · omega

/-- C9: when the trail length is within the bound before `update_trail`, it is
within the bound afterwards; eviction drops the oldest (front) sample, never
the newest; and starting from an empty trail, after more than `trail_length`
updates the trail length is exactly `trail_length`. -/
theorem C9_trail_invariant (p : Planet) (hx : (p.x_trail.length : ℤ) ≤ p.trail_length)
    (hy : p.y_trail.length = p.x_trail.length) :
    ((p.update_trail.x_trail.length : ℤ) ≤ p.trail_length ∧
      (p.update_trail.y_trail.length : ℤ) ≤ p.trail_length) ∧
    p.update_trail.x_trail =
      (if (p.x_trail.length + 1 : ℤ) > p.trail_length then (p.x_trail ++ [p.pos.x]).tail
       else p.x_trail ++ [p.pos.x]) ∧
    (p.x_trail = [] → ∀ k : ℕ, p.trail_length.toNat < k →
      ((Planet.update_trail^[k] p).x_trail.length : ℤ) = p.trail_length) := by
  refine ⟨⟨?_, ?_⟩, ?_, ?_⟩
  · rw [Planet.update_trail_x_length]
    split_ifs with hcond
    · exact hx
    · push_cast
      omega
  · rw [Planet.update_trail_y_length]
    split_ifs with hcond
    · omega
    · push_cast
      omega
  · by_cases h : (p.x_trail.length + 1 : ℤ) > p.trail_length
    · rw [if_pos h]
      have hc : ((p.x_trail ++ [p.pos.x]).length : ℤ) > p.trail_length := by
        rw [List.length_append, List.length_singleton]
        push_cast
        omega
      simp only [Planet.update_trail]
      rw [if_pos hc]
    · rw [if_neg h]
      have hc : ¬ ((p.x_trail ++ [p.pos.x]).length : ℤ) > p.trail_length := by
        rw [List.length_append, List.length_singleton]
        push_cast
        omega
      simp only [Planet.update_trail]
      rw [if_neg hc]
  · intro hempty k hk
    rw [Planet.update_trail_iterate_length k p hx, hempty]
    simp only [List.length_nil]
    omega

/-- Witness for C9: a fresh body with `trail_length = 2` has trail length
exactly `2` after three `update_trail` calls. -/
theorem C9_trail_invariant_witness :
    ((((Planet.init "t" (Point.mk 1 2) (Point.mk 0 0) 1 "c" 2).x_trail.length : ℤ)) ≤
      (Planet.init "t" (Point.mk 1 2) (Point.mk 0 0) 1 "c" 2).trail_length) ∧
    ((Planet.update_trail^[3]
        (Planet.init "t" (Point.mk 1 2) (Point.mk 0 0) 1 "c" 2)).x_trail.length : ℤ) =
      (Planet.init "t" (Point.mk 1 2) (Point.mk 0 0) 1 "c" 2).trail_length := by
  have hx : (((Planet.init "t" (Point.mk 1 2) (Point.mk 0 0) 1 "c" 2).x_trail.length : ℤ)) ≤
      (Planet.init "t" (Point.mk 1 2) (Point.mk 0 0) 1 "c" 2).trail_length := by
    simp
  refine ⟨hx, ?_⟩
  exact (C9_trail_invariant _ hx (by simp)).2.2 (by simp) 3 (by simp)

theorem update_planets_eq (planets : List Planet) (c : String) (delta : ℝ) (ctr : Planet)
    (h : (accumulate_forces planets).find? (fun p => p.name == c) = some ctr) :
    update_planets planets c delta =
      some (((accumulate_forces planets).map (shift_update ctr.pos ctr.vel delta)).filter
        (fun p => !p.destroyed)) := by
  simp only [update_planets]
  rw [h]

/-- Counterexample to C1: a reference body with nonzero pre-tick velocity does
not end the tick at position `(0,0)` — a lone body named `sun` at the origin
with velocity `(1,0)` ends one `update_planets` tick (with `delta = 1`) at
position `(1,0)`, because the subtracted snapshot is the body's state from
before its own position update. -/
theorem C1_counterexample :
    (update_planets [Planet.init "sun" (Point.mk 0 0) (Point.mk 1 0) 1 "yellow" 0]
        "sun" 1).map (List.map Planet.pos) = some [Point.mk 1 0] ∧
    Point.mk (1 : ℝ) 0 ≠ Point.mk 0 0 := by
  constructor
  · have hacc : accumulate_forces
        [Planet.init "sun" (Point.mk 0 0) (Point.mk 1 0) 1 "yellow" 0] =
        [Planet.init "sun" (Point.mk 0 0) (Point.mk 1 0) 1 "yellow" 0] := rfl
    have hfind : (accumulate_forces
        [Planet.init "sun" (Point.mk 0 0) (Point.mk 1 0) 1 "yellow" 0]).find?
        (fun p => p.name == "sun") =
        some (Planet.init "sun" (Point.mk 0 0) (Point.mk 1 0) 1 "yellow" 0) := by
      rw [hacc]
      simp [List.find?]
    rw [update_planets_eq _ _ _ _ hfind, hacc]
    have hdes : (shift_update (Point.mk 0 0) (Point.mk 1 0) 1
        (Planet.init "sun" (Point.mk 0 0) (Point.mk 1 0) 1 "yellow" 0)).destroyed = false := rfl
    have hq : (shift_update (Point.mk 0 0) (Point.mk 1 0) 1
        (Planet.init "sun" (Point.mk 0 0) (Point.mk 1 0) 1 "yellow" 0)).pos = Point.mk 1 0 := by
      show ((Planet.init "sun" (Point.mk 0 0) (Point.mk 1 0) 1 "yellow" 0).update_planet 1).pos -
          Point.mk 0 0 = Point.mk 1 0
      simp only [Planet.update_planet, Planet.init_pos, Planet.init_vel]
      ext <;> simp
    simp [List.filter_cons, hdes, hq]
  · intro hcontra
    have hx := congrArg Point.x hcontra
    simp only [Point.mk_x] at hx
    norm_num at hx

/-- C1 amended: `update_planets` snapshots the reference body after the force
pass and before any body is updated, then subtracts that snapshot from every
updated body; consequently the reference body ends the tick with position
`Δt • (its pre-tick velocity)` and velocity `Δt • (its accumulated
acceleration)` — which is `(0,0)` only when those vanish, not in general. -/
theorem C1_centering (planets : List Planet) (c : String) (delta : ℝ) (ctr : Planet)
    (h : (accumulate_forces planets).find? (fun p => p.name == c) = some ctr) :
    update_planets planets c delta =
      some (((accumulate_forces planets).map (shift_update ctr.pos ctr.vel delta)).filter
        (fun p => !p.destroyed)) ∧
    (shift_update ctr.pos ctr.vel delta ctr).pos = delta • ctr.vel ∧
    (shift_update ctr.pos ctr.vel delta ctr).vel = delta • ctr.accel := by
  refine ⟨update_planets_eq planets c delta ctr h, ?_, ?_⟩
  · show (ctr.update_planet delta).pos - ctr.pos = delta • ctr.vel
    simp only [Planet.update_planet]
    ext <;> simp
  · show (ctr.update_planet delta).vel - ctr.vel = delta • ctr.accel
    simp only [Planet.update_planet]
    ext <;> simp

/-- Witness for C1 (amended): for the lone `sun` body with velocity `(1,0)`
and `delta = 1`, the reference body ends the tick at `1 • (1,0)`. -/
theorem C1_centering_witness :
    (accumulate_forces [Planet.init "sun" (Point.mk 0 0) (Point.mk 1 0) 1 "yellow" 0]).find?
        (fun p => p.name == "sun") =
      some (Planet.init "sun" (Point.mk 0 0) (Point.mk 1 0) 1 "yellow" 0) ∧
    (shift_update (Planet.init "sun" (Point.mk 0 0) (Point.mk 1 0) 1 "yellow" 0).pos
        (Planet.init "sun" (Point.mk 0 0) (Point.mk 1 0) 1 "yellow" 0).vel 1
        (Planet.init "sun" (Point.mk 0 0) (Point.mk 1 0) 1 "yellow" 0)).pos =
      (1 : ℝ) • (Planet.init "sun" (Point.mk 0 0) (Point.mk 1 0) 1 "yellow" 0).vel := by
  have hfind : (accumulate_forces
      [Planet.init "sun" (Point.mk 0 0) (Point.mk 1 0) 1 "yellow" 0]).find?
      (fun p => p.name == "sun") =
      some (Planet.init "sun" (Point.mk 0 0) (Point.mk 1 0) 1 "yellow" 0) := by
    simp [accumulate_forces, pairIndices, List.find?]
  exact ⟨hfind, (C1_centering _ "sun" 1 _ hfind).2.1⟩

/-- C10: in every `update_planets` tick the re-centering step subtracts the
same snapshot from every body, so pairwise differences of positions and of
velocities after the tick equal the differences right after the physics
update and before the subtraction. -/
theorem C10_relative_state (planets : List Planet) (c : String) (delta : ℝ) (ctr : Planet)
    (h : (accumulate_forces planets).find? (fun p => p.name == c) = some ctr) :
    update_planets planets c delta =
      some (((accumulate_forces planets).map (shift_update ctr.pos ctr.vel delta)).filter
        (fun p => !p.destroyed)) ∧
    ∀ p q : Planet,
      (shift_update ctr.pos ctr.vel delta p).pos - (shift_update ctr.pos ctr.vel delta q).pos =
        (p.update_planet delta).pos - (q.update_planet delta).pos ∧
      (shift_update ctr.pos ctr.vel delta p).vel - (shift_update ctr.pos ctr.vel delta q).vel =
        (p.update_planet delta).vel - (q.update_planet delta).vel := by
  refine ⟨update_planets_eq planets c delta ctr h, fun p q => ⟨?_, ?_⟩⟩ <;>
    ext <;> simp [shift_update]

/-- Witness for C10: instantiated on the lone `sun` system with two arbitrary
concrete bodies. -/
theorem C10_relative_state_witness :
    (accumulate_forces [Planet.init "sun" (Point.mk 0 0) (Point.mk 1 0) 1 "yellow" 0]).find?
        (fun p => p.name == "sun") =
      some (Planet.init "sun" (Point.mk 0 0) (Point.mk 1 0) 1 "yellow" 0) ∧
    (shift_update (Planet.init "sun" (Point.mk 0 0) (Point.mk 1 0) 1 "yellow" 0).pos
        (Planet.init "sun" (Point.mk 0 0) (Point.mk 1 0) 1 "yellow" 0).vel 1
        (Planet.init "a" (Point.mk 2 3) (Point.mk 0 0) 1 "red" 0)).pos -
      (shift_update (Planet.init "sun" (Point.mk 0 0) (Point.mk 1 0) 1 "yellow" 0).pos
        (Planet.init "sun" (Point.mk 0 0) (Point.mk 1 0) 1 "yellow" 0).vel 1
        (Planet.init "b" (Point.mk 5 7) (Point.mk 0 0) 1 "blue" 0)).pos =
      ((Planet.init "a" (Point.mk 2 3) (Point.mk 0 0) 1 "red" 0).update_planet 1).pos -
      ((Planet.init "b" (Point.mk 5 7) (Point.mk 0 0) 1 "blue" 0).update_planet 1).pos := by
  have hfind : (accumulate_forces
      [Planet.init "sun" (Point.mk 0 0) (Point.mk 1 0) 1 "yellow" 0]).find?
      (fun p => p.name == "sun") =
      some (Planet.init "sun" (Point.mk 0 0) (Point.mk 1 0) 1 "yellow" 0) := by
    simp [accumulate_forces, pairIndices, List.find?]
  exact ⟨hfind, ((C10_relative_state _ "sun" 1 _ hfind).2
    (Planet.init "a" (Point.mk 2 3) (Point.mk 0 0) 1 "red" 0)
    (Planet.init "b" (Point.mk 5 7) (Point.mk 0 0) 1 "blue" 0)).1⟩

theorem rpow_three_halves (x : ℝ) (hx : 0 < x) :
    x ^ ((3 : ℝ) / 2) = x * Real.sqrt x := by
  rw [show (3 : ℝ) / 2 = 1 + 1 / 2 by norm_num, Real.rpow_add hx, Real.rpow_one]
  congr 1
  rw [← Real.sqrt_eq_rpow]

/-- Counterexample to C4: `in_orbit` (src/orbits.py) applies no lower clamp of
60 days.  At radius `1.496e11 / 4` the raw period is `365 / 8 = 45.625` days;
the claimed two-sided clamp gives trail bound `⌊0.8 * 60 / 5⌋ = 9`, but the
code computes `⌊0.8 * 45.625 / 5⌋ = 7`. -/
theorem C4_counterexample :
    (Planet.in_orbit "x" (1.496e11 / 4) 1 "c" 0 5).trail_length = 7 ∧
    (⌊(0.8 * (max (min 365 (Planet.orbital_period_raw (1.496e11 / 4))) 60 / 5) : ℝ)⌋ = 9) ∧
    (7 : ℤ) ≠ 9 := by
  have hquarter : Real.sqrt (1 / 4 : ℝ) = 1 / 2 := by
    rw [show (1 / 4 : ℝ) = (1 / 2) ^ 2 by norm_num, Real.sqrt_sq (by norm_num)]
  have hraw : Planet.orbital_period_raw (1.496e11 / 4) = 45.625 := by
    rw [Planet.orbital_period_raw, show ((1.496e11 / 4 : ℝ) / 1.496e11) = 1 / 4 by norm_num,
      rpow_three_halves (1 / 4 : ℝ) (by norm_num), hquarter]
    norm_num
  refine ⟨?_, ?_, by norm_num⟩
  · show Planet.pyInt
      (0.8 * (min 365 (Planet.orbital_period_raw (1.496e11 / 4)) / ((5 : ℤ) : ℝ))) = 7
    rw [hraw, min_eq_right (by norm_num : (45.625 : ℝ) ≤ 365)]
    rw [Planet.pyInt, if_pos (by norm_num)]
    rw [show (0.8 * ((45.625 : ℝ) / ((5 : ℤ) : ℝ))) = 7.3 by norm_num]
    exact Int.floor_eq_iff.mpr (by norm_num)
  · rw [hraw, min_eq_right (by norm_num : (45.625 : ℝ) ≤ 365),
      max_eq_right (by norm_num : (45.625 : ℝ) ≤ 60)]
    rw [show (0.8 * ((60 : ℝ) / 5)) = 9.6 by norm_num]
    exact Int.floor_eq_iff.mpr (by norm_num)

/-- C4 amended: `in_orbit_of` (src/planets.py) clamps the orbital period two
sided to `[60, 365]` and sets the trail bound to the truncation of
`0.8 * period / daysPerFrame`; `in_orbit` (src/orbits.py) clamps only from
above by 365 and applies no lower bound of 60. -/
theorem C4_trail_bound (parent : Planet) (n : String) (radius mass : ℝ) (color : String)
    (angle : ℝ) (dpf : ℤ) :
    (Planet.in_orbit_of parent n radius mass color angle dpf).trail_length =
      Planet.pyInt (0.8 * (max (min 365 (Planet.orbital_period_raw radius)) 60 / (dpf : ℝ))) ∧
    (Planet.in_orbit n radius mass color angle dpf).trail_length =
      Planet.pyInt (0.8 * (min 365 (Planet.orbital_period_raw radius) / (dpf : ℝ))) ∧
    60 ≤ max (min 365 (Planet.orbital_period_raw radius)) 60 ∧
    max (min (365 : ℝ) (Planet.orbital_period_raw radius)) 60 ≤ 365 :=
  ⟨rfl, rfl, le_max_right _ _, max_le (min_le_left _ _) (by norm_num)⟩

theorem sim_loop_run (c : String) (dpf : ℤ) (hdpf : 0 < dpf) :
    ∀ (n : ℕ) (de days : ℤ) (fi : ℕ) (st : Option (List Planet)),
      days = de + dpf * n →
      (sim_loop c dpf days de fi st).1 = fi + n ∧
      (sim_loop c dpf days de fi st).2.1 = days := by
  intro n
  induction n with
  | zero =>
    intro de days fi st hdays
    rw [sim_loop, dif_neg]
    · push_cast at hdays
      refine ⟨rfl, ?_⟩
      show de = days
      omega
    · rintro ⟨h1, h2⟩
      push_cast at hdays
      omega
  | succ n ih =>
    intro de days fi st hdays
    have hlt : de < days := by
      have hmul : (0 : ℤ) < dpf * ((n : ℤ) + 1) :=
        mul_pos hdpf (by positivity)
      rw [hdays]
      push_cast
      linarith
    rw [sim_loop, dif_pos ⟨hlt, hdpf⟩]
    have hdays2 : days = (de + dpf) + dpf * n := by
      rw [hdays]
      push_cast
      ring
    have hrec := ih (de + dpf) days (fi + 1) (frame_step c dpf st) hdays2
    exact ⟨by rw [hrec.1]; omega, hrec.2⟩

/-- C6: the driver runs `daysPerFrame * 24` ticks of `Δt = 3600` seconds per
rendered frame, advances the day counter by `daysPerFrame` per frame, and its
loop ends once `3000` simulated days have elapsed; with `daysPerFrame = 5` it
emits exactly `600` frames. -/
theorem C6_driver (init : List Planet) (c : String) (fi : ℕ) :
    (simulate init 5 c fi).1 = fi + 600 ∧
    (simulate init 5 c fi).2.1 = 3000 ∧
    (∀ st : Option (List Planet), frame_step c 5 st =
      (((tick c)^[120]) st).map fun ps => ps.map Planet.update_trail) ∧
    (∀ ps : List Planet, tick c (some ps) = update_planets ps c 3600) := by
  have h := sim_loop_run c 5 (by norm_num) 600 0 (5 * 600) fi (some init) (by norm_num)
  refine ⟨h.1, ?_, fun st => rfl, fun ps => rfl⟩
  show (sim_loop c 5 (5 * 600) 0 fi (some init)).2.1 = 3000
  rw [h.2]
  norm_num

end RogueStar
